import Mathlib

/-!
Verification development for the Realingdle daily-puzzle session.

The definitions below are a shallow embedding of the game-session logic:
the `GamePageContent` component (optimistic/remote/local-cache hydration in
`fetchCharacterOfDay`, the `handleGuess` state transition, the `renderChips`
feedback computation), the `GET /api/daily-character` route (deterministic
daily-target selection and persistence), the `withRetry` bounded-retry
combinator, and the read-then-write stat increments of `lib/profile.ts`.
Machine numbers are modelled as `Int`/`Nat`; nullable remote fields as
`Option`; fallible paths as `Except`.
-/

namespace Realingdle

/-- Lookup entity (State, Class, Race, Occupation, Association, Place rows):
an id and a display name. -/
structure Entity where
  id : String
  name : String
deriving DecidableEq, Repr

/-- A character of the catalog, with its associated lookup entities inlined
(the normalized `Character` shape of `types/index.ts`). -/
structure Character where
  id : String
  name : String
  age : Option Int
  state : Option Entity
  classes : List Entity
  races : List Entity
  occupations : List Entity
  associations : List Entity
  places : List Entity
deriving DecidableEq, Repr

/-- `MAX_LIVES = 10` in `GamePageContent`. -/
def MAX_LIVES : Int := 10

/-- The in-memory session state of `GamePageContent`: the React state cells
`guesses`, `lives`, `found`, `won`, `gameOver`.  `lives` is an `Int` because
the JavaScript decrement `lives - 1` is not floored by the language. -/
structure GameState where
  guesses : List String
  lives : Int
  found : Bool
  won : Bool
  gameOver : Bool
deriving DecidableEq, Repr

/-- The initial state (`useState` initializers / the reset performed when no
optimistic hydration happened): zero guesses, full lives, nothing found. -/
def freshState : GameState :=
  { guesses := [], lives := MAX_LIVES, found := false, won := false, gameOver := false }

/-- A local-storage game cache entry (`realingdle:game-state:v3:<date>`):
`dateKey`, `characterId`, `guesses`, `lives`, `won`, and an optional `found`
flag (absent in records written before the flag existed). -/
structure StoredGame where
  dateKey : String
  characterId : String
  guesses : List String
  lives : Int
  won : Bool
  found : Option Bool
deriving DecidableEq, Repr

/-- A remote `daily_game_attempts` row as selected by the session:
`guesses`, `lives_remaining` (nullable), `won`, `found`. -/
structure SavedAttempt where
  guesses : List String
  lives_remaining : Option Int
  won : Bool
  found : Bool
deriving DecidableEq, Repr

/-- The clamp `Math.max(0, Math.min(l, MAX_LIVES))` applied at every
hydration site. -/
def clampLives (l : Int) : Int := max 0 (min l MAX_LIVES)

/-- Hydration from the optimistic local cache (lines 286-299 of the game
page): lives clamped, `found` defaulting to `won` when absent
(`parsedGameCache.found ?? parsedGameCache.won`), `gameOver` recomputed. -/
def hydrateOptimistic (g : StoredGame) : GameState :=
  let cachedLives := clampLives g.lives
  let cachedFound := g.found.getD g.won
  { guesses := g.guesses
    lives := cachedLives
    won := g.won
    found := cachedFound
    gameOver := cachedFound || decide (cachedLives = 0) }

/-- Hydration from the authoritative remote attempt (lines 407-417):
lives clamped with `lives_remaining ?? MAX_LIVES`, and
`found := Boolean(savedAttempt.found || savedAttempt.won)`. -/
def hydrateRemote (a : SavedAttempt) : GameState :=
  let savedLives := clampLives (a.lives_remaining.getD MAX_LIVES)
  let savedFound := a.found || a.won
  { guesses := a.guesses
    lives := savedLives
    won := a.won
    found := savedFound
    gameOver := savedFound || decide (savedLives = 0) }

/-- Hydration from the fallback local cache (lines 441-448): the same
arithmetic as the optimistic site (`Boolean(saved.found ?? saved.won)`). -/
def hydrateLocalCache (g : StoredGame) : GameState :=
  let savedLives := clampLives g.lives
  let savedFound := g.found.getD g.won
  { guesses := g.guesses
    lives := savedLives
    won := g.won
    found := savedFound
    gameOver := savedFound || decide (savedLives = 0) }

/-- Case-insensitive name equality, `a.toLowerCase() === b.toLowerCase()`.
`String.toLower` is `String.map Char.toLower`, and string equality compares
the underlying character lists, so the comparison is embedded directly over
those lists (which also keeps it kernel-computable). -/
def lowerEq (a b : String) : Bool := a.data.map Char.toLower == b.data.map Char.toLower

/-- The environment `handleGuess` closes over: the loaded catalog and the
(possibly still unresolved) character of the day. -/
structure GuessEnv where
  allCharacters : List Character
  characterOfDay : Option Character
deriving DecidableEq, Repr

/-- `allCharacters.find(c => c.name.toLowerCase() === guess.toLowerCase())`. -/
def matchedCharacter (env : GuessEnv) (guess : String) : Option Character :=
  env.allCharacters.find? (fun c => lowerEq c.name guess)

/-- Outcome of `validateGuessOnBackend`: the RPC throws (`error`), or it
returns with `is_correct` either a boolean or absent/non-boolean (`ok`). -/
inductive BackendVerdict where
  | ok (isCorrect : Option Bool)
  | error
deriving DecidableEq, Repr

/-- `isTodayGame`: the session date compared with the real-world current
date key (`gameDate === getTodayKey()`). -/
def isTodayGame (gameDate todayKey : String) : Bool := gameDate == todayKey

/-- The value of `backendIsCorrect` in `handleGuess`: the RPC boolean when
the call returned one, `null` when it threw or returned no boolean. -/
def backendCorrect : BackendVerdict → Option Bool
  | .ok v => v
  | .error => none

/-- The `handleGuess` state transition (lines 559-628), as a pure function
of the current state, the environment, `isTodayGame`, the submitted token
and the backend verdict.  Terminal or target-less sessions return the state
unchanged; unmatched tokens return it unchanged; otherwise the guess is
appended, correctness is the backend boolean when present
(`backendIsCorrect ?? localComparison`) and the local case-insensitive name
comparison otherwise, and the win/life branches mirror the source. -/
def handleGuess (s : GameState) (env : GuessEnv) (isToday : Bool)
    (guess : String) (verdict : BackendVerdict) : GameState :=
  if s.gameOver then s else
  match env.characterOfDay with
  | none => s
  | some target =>
    match matchedCharacter env guess with
    | none => s
    | some mc =>
      if (backendCorrect verdict).getD (lowerEq mc.name target.name) then
        { s with
          guesses := s.guesses ++ [mc.id]
          found := true
          won := isToday
          gameOver := true }
      else
        { s with
          guesses := s.guesses ++ [mc.id]
          lives := s.lives - 1
          gameOver := if s.lives - 1 = 0 then true else s.gameOver }

/-- The correctness verdict `handleGuess` acts on, exposed for the
statements: `some b` when a target and a matched character exist (with `b`
the backend boolean if present, else the local name comparison), `none`
otherwise. -/
def isCorrectOf (env : GuessEnv) (guess : String) (verdict : BackendVerdict) : Option Bool :=
  match env.characterOfDay, matchedCharacter env guess with
  | some target, some mc =>
    some ((backendCorrect verdict).getD (lowerEq mc.name target.name))
  | _, _ => none

/-- The local fallback verdict alone: the case-insensitive comparison of the
matched character name with the target name. -/
def localVerdictOf (env : GuessEnv) (guess : String) : Option Bool :=
  match env.characterOfDay, matchedCharacter env guess with
  | some target, some mc => some (lowerEq mc.name target.name)
  | _, _ => none

/-- One submitted guess together with the ambient data it is processed
against. -/
structure GuessEvent where
  env : GuessEnv
  isToday : Bool
  guess : String
  verdict : BackendVerdict
deriving Repr

/-- Folding a sequence of guess submissions over a starting state. -/
def runGuesses (s : GameState) (evs : List GuessEvent) : GameState :=
  evs.foldl (fun st e => handleGuess st e.env e.isToday e.guess e.verdict) s

/-- States the session can actually be in: the fresh state, any hydrated
state, and anything `handleGuess` reaches from those. -/
inductive Reachable : GameState → Prop where
  | fresh : Reachable freshState
  | remote (a : SavedAttempt) : Reachable (hydrateRemote a)
  | localCache (g : StoredGame) : Reachable (hydrateLocalCache g)
  | optimistic (g : StoredGame) : Reachable (hydrateOptimistic g)
  | step {s : GameState} (env : GuessEnv) (isToday : Bool) (guess : String)
      (verdict : BackendVerdict) : Reachable s →
      Reachable (handleGuess s env isToday guess verdict)

theorem clampLives_nonneg (l : Int) : 0 ≤ clampLives l := le_max_left 0 _

theorem clampLives_le (l : Int) : clampLives l ≤ MAX_LIVES := by
  unfold clampLives
  exact max_le (by norm_num [MAX_LIVES]) (min_le_right l MAX_LIVES)

theorem handleGuess_of_gameOver {s : GameState} (env : GuessEnv) (isToday : Bool)
    (guess : String) (verdict : BackendVerdict) (h : s.gameOver = true) :
    handleGuess s env isToday guess verdict = s := by
  simp [handleGuess, h]

theorem handleGuess_no_target {s : GameState} {env : GuessEnv} (isToday : Bool)
    (guess : String) (verdict : BackendVerdict) (h : s.gameOver = false)
    (ht : env.characterOfDay = none) :
    handleGuess s env isToday guess verdict = s := by
  simp [handleGuess, h, ht]

theorem handleGuess_no_match {s : GameState} {env : GuessEnv} {target : Character}
    (isToday : Bool) {guess : String} (verdict : BackendVerdict)
    (h : s.gameOver = false) (ht : env.characterOfDay = some target)
    (hm : matchedCharacter env guess = none) :
    handleGuess s env isToday guess verdict = s := by
  simp [handleGuess, h, ht, hm]

theorem handleGuess_correct {s : GameState} {env : GuessEnv} {target mc : Character}
    (isToday : Bool) {guess : String} {verdict : BackendVerdict}
    (h : s.gameOver = false) (ht : env.characterOfDay = some target)
    (hm : matchedCharacter env guess = some mc)
    (hc : (backendCorrect verdict).getD (lowerEq mc.name target.name) = true) :
    handleGuess s env isToday guess verdict =
      { s with
        guesses := s.guesses ++ [mc.id]
        found := true
        won := isToday
        gameOver := true } := by
  simp [handleGuess, h, ht, hm, hc]

theorem handleGuess_incorrect {s : GameState} {env : GuessEnv} {target mc : Character}
    (isToday : Bool) {guess : String} {verdict : BackendVerdict}
    (h : s.gameOver = false) (ht : env.characterOfDay = some target)
    (hm : matchedCharacter env guess = some mc)
    (hc : (backendCorrect verdict).getD (lowerEq mc.name target.name) = false) :
    handleGuess s env isToday guess verdict =
      { s with
        guesses := s.guesses ++ [mc.id]
        lives := s.lives - 1
        gameOver := if s.lives - 1 = 0 then true else s.gameOver } := by
  simp [handleGuess, h, ht, hm, hc]

/-- The four-way case split every `handleGuess` proof walks through. -/
theorem handleGuess_cases (s : GameState) (env : GuessEnv) (isToday : Bool)
    (guess : String) (verdict : BackendVerdict) :
    handleGuess s env isToday guess verdict = s ∨
    (∃ mc : Character, s.gameOver = false ∧
      isCorrectOf env guess verdict = some true ∧
      handleGuess s env isToday guess verdict =
        { s with
          guesses := s.guesses ++ [mc.id]
          found := true
          won := isToday
          gameOver := true }) ∨
    (∃ mc : Character, s.gameOver = false ∧
      isCorrectOf env guess verdict = some false ∧
      handleGuess s env isToday guess verdict =
        { s with
          guesses := s.guesses ++ [mc.id]
          lives := s.lives - 1
          gameOver := if s.lives - 1 = 0 then true else s.gameOver }) := by
  by_cases hgo0 : s.gameOver = true
  · exact Or.inl (handleGuess_of_gameOver env isToday guess verdict hgo0)
  · have hgo : s.gameOver = false := by simpa using hgo0
    cases ht : env.characterOfDay with
    | none => exact Or.inl (handleGuess_no_target isToday guess verdict hgo ht)
    | some target =>
      cases hm : matchedCharacter env guess with
      | none => exact Or.inl (handleGuess_no_match isToday verdict hgo ht hm)
      | some mc =>
        cases hc : (backendCorrect verdict).getD (lowerEq mc.name target.name) with
        | true =>
          refine Or.inr (Or.inl ⟨mc, hgo, ?_, handleGuess_correct isToday hgo ht hm hc⟩)
          simp [isCorrectOf, ht, hm, hc]
        | false =>
          refine Or.inr (Or.inr ⟨mc, hgo, ?_, handleGuess_incorrect isToday hgo ht hm hc⟩)
          simp [isCorrectOf, ht, hm, hc]

/-- The invariant `gameOver = (found ∨ lives = 0) ∧ 0 ≤ lives ≤ MAX_LIVES`
is preserved by one `handleGuess` step. -/
theorem handleGuess_preserves_invariant (s : GameState) (env : GuessEnv)
    (isToday : Bool) (guess : String) (verdict : BackendVerdict)
    (hover : s.gameOver = (s.found || decide (s.lives = 0)))
    (hlo : 0 ≤ s.lives) (hhi : s.lives ≤ MAX_LIVES) :
    (handleGuess s env isToday guess verdict).gameOver =
        ((handleGuess s env isToday guess verdict).found ||
          decide ((handleGuess s env isToday guess verdict).lives = 0)) ∧
      0 ≤ (handleGuess s env isToday guess verdict).lives ∧
      (handleGuess s env isToday guess verdict).lives ≤ MAX_LIVES := by
  rcases handleGuess_cases s env isToday guess verdict with
    heq | ⟨mc, hgo, _, heq⟩ | ⟨mc, hgo, _, heq⟩
  · rw [heq]; exact ⟨hover, hlo, hhi⟩
  · rw [heq]; exact ⟨by simp, hlo, hhi⟩
  · rw [heq]
    rw [hgo] at hover
    have hover' := hover.symm
    rw [Bool.or_eq_false_iff] at hover'
    obtain ⟨hf, hl0⟩ := hover'
    have hl0' : ¬ s.lives = 0 := of_decide_eq_false hl0
    have hhi' : s.lives ≤ 10 := hhi
    refine ⟨?_, ?_, ?_⟩
    · show (if s.lives - 1 = 0 then true else s.gameOver) =
        (s.found || decide (s.lives - 1 = 0))
      by_cases h0 : s.lives - 1 = 0 <;> simp [h0, hgo, hf]
    · show 0 ≤ s.lives - 1
      omega
    · show s.lives - 1 ≤ MAX_LIVES
      show s.lives - 1 ≤ 10
      omega

/-- Session invariant: `gameOver` tracks `found ∨ lives = 0`, and lives stay
within `[0, MAX_LIVES]`, in every reachable state. -/
theorem reachable_invariant {s : GameState} (h : Reachable s) :
    s.gameOver = (s.found || decide (s.lives = 0)) ∧ 0 ≤ s.lives ∧ s.lives ≤ MAX_LIVES := by
  induction h with
  | fresh => exact ⟨rfl, by norm_num [freshState, MAX_LIVES]⟩
  | remote a => exact ⟨rfl, clampLives_nonneg _, clampLives_le _⟩
  | localCache g => exact ⟨rfl, clampLives_nonneg _, clampLives_le _⟩
  | optimistic g => exact ⟨rfl, clampLives_nonneg _, clampLives_le _⟩
  | step env isToday guess verdict _ ih =>
    exact handleGuess_preserves_invariant _ env isToday guess verdict ih.1 ih.2.1 ih.2.2

theorem runGuesses_reachable (evs : List GuessEvent) {s : GameState}
    (h : Reachable s) : Reachable (runGuesses s evs) := by
  induction evs generalizing s with
  | nil => exact h
  | cons e evs ih =>
    exact ih (Reachable.step e.env e.isToday e.guess e.verdict h)

/-- C2: in every reachable session state in which `found` is true or
`lives` is 0, submitting any further guess — any token, matched or not,
any backend verdict — leaves `guesses`, `lives`, `found` and `won`
unchanged: `handleGuess` returns the state as is, silently, with no error
value. -/
theorem claim_C2_terminal_lock {s : GameState} (h : Reachable s)
    (hterm : s.found = true ∨ s.lives = 0) (env : GuessEnv) (isToday : Bool)
    (guess : String) (verdict : BackendVerdict) :
    handleGuess s env isToday guess verdict = s := by
  have hinv := (reachable_invariant h).1
  have hgo : s.gameOver = true := by
    rcases hterm with hf | hl
    · rw [hinv, hf]; simp
    · rw [hinv, hl]; simp
  exact handleGuess_of_gameOver env isToday guess verdict hgo

/-- Witness for C2: a concrete hydrated state with zero lives is left
untouched by a further guess. -/
theorem claim_C2_terminal_lock_witness :
    handleGuess (hydrateRemote ⟨[], some 0, false, false⟩)
        ⟨[], none⟩ true "anyone" .error =
      hydrateRemote ⟨[], some 0, false, false⟩ :=
  claim_C2_terminal_lock (Reachable.remote ⟨[], some 0, false, false⟩)
    (Or.inr (by decide)) ⟨[], none⟩ true "anyone" .error

/-- C3: from a fresh session, along any guess sequence, lives stay within
`[0, MAX_LIVES]` and never increase; a further matched guess judged
incorrect while the game is live decrements them by exactly 1; and once
lives reach 0 no further guess changes them. -/
theorem claim_C3_lives_monotonic (evs : List GuessEvent) (env : GuessEnv)
    (isToday : Bool) (guess : String) (verdict : BackendVerdict) :
    0 ≤ (runGuesses freshState evs).lives ∧
    (runGuesses freshState evs).lives ≤ MAX_LIVES ∧
    (handleGuess (runGuesses freshState evs) env isToday guess verdict).lives ≤
      (runGuesses freshState evs).lives ∧
    ((runGuesses freshState evs).gameOver = false →
      isCorrectOf env guess verdict = some false →
      (handleGuess (runGuesses freshState evs) env isToday guess verdict).lives =
        (runGuesses freshState evs).lives - 1) ∧
    ((runGuesses freshState evs).lives = 0 →
      (handleGuess (runGuesses freshState evs) env isToday guess verdict).lives =
        (runGuesses freshState evs).lives) := by
  have hre : Reachable (runGuesses freshState evs) :=
    runGuesses_reachable evs Reachable.fresh
  obtain ⟨hover, hlo, hhi⟩ := reachable_invariant hre
  refine ⟨hlo, hhi, ?_, ?_, ?_⟩
  · rcases handleGuess_cases (runGuesses freshState evs) env isToday guess verdict with
      heq | ⟨mc, hgo, _, heq⟩ | ⟨mc, hgo, _, heq⟩
    · rw [heq]
    · rw [heq]
    · rw [heq]
      show (runGuesses freshState evs).lives - 1 ≤ (runGuesses freshState evs).lives
      omega
  · intro hgo hfalse
    cases ht : env.characterOfDay with
    | none => rw [isCorrectOf, ht] at hfalse; exact absurd hfalse (by simp)
    | some target =>
      cases hm : matchedCharacter env guess with
      | none =>
        rw [isCorrectOf, ht, hm] at hfalse
        exact absurd hfalse (by simp)
      | some mc =>
        have hc : (backendCorrect verdict).getD (lowerEq mc.name target.name) = false := by
          rw [isCorrectOf, ht, hm] at hfalse
          simpa using hfalse
        rw [handleGuess_incorrect isToday hgo ht hm hc]
  · intro hl0
    have hgo : (runGuesses freshState evs).gameOver = true := by
      rw [hover, hl0]; simp
    rw [handleGuess_of_gameOver env isToday guess verdict hgo]

/-- Witness for C3: a concrete incorrect matched guess on a fresh session
drops lives from 10 to 9. -/
theorem claim_C3_lives_monotonic_witness :
    (handleGuess (runGuesses freshState [])
        ⟨[⟨"a1", "A", none, none, [], [], [], [], []⟩],
          some ⟨"b1", "B", none, none, [], [], [], [], []⟩⟩
        true "a" (.ok (some false))).lives =
      (runGuesses freshState []).lives - 1 :=
  (claim_C3_lives_monotonic []
      ⟨[⟨"a1", "A", none, none, [], [], [], [], []⟩],
        some ⟨"b1", "B", none, none, [], [], [], [], []⟩⟩
      true "a" (.ok (some false))).2.2.2.1 (by decide) (by decide)

/-- C4: a guess confirmed correct in a live session sets `found = true`,
marks the game over, and sets `won = true` exactly when the session date
equals the real-world current date key at guess time; for any other (past)
date the correct guess yields `found` without `won`. -/
theorem claim_C4_won_iff_today {s : GameState} {env : GuessEnv}
    (gameDate todayKey : String) {guess : String} {verdict : BackendVerdict}
    (hgo : s.gameOver = false)
    (hcorrect : isCorrectOf env guess verdict = some true) :
    (handleGuess s env (isTodayGame gameDate todayKey) guess verdict).found = true ∧
    (handleGuess s env (isTodayGame gameDate todayKey) guess verdict).gameOver = true ∧
    ((handleGuess s env (isTodayGame gameDate todayKey) guess verdict).won = true ↔
      gameDate = todayKey) := by
  cases ht : env.characterOfDay with
  | none => rw [isCorrectOf, ht] at hcorrect; exact absurd hcorrect (by simp)
  | some target =>
    cases hm : matchedCharacter env guess with
    | none =>
      rw [isCorrectOf, ht, hm] at hcorrect
      exact absurd hcorrect (by simp)
    | some mc =>
      have hc : (backendCorrect verdict).getD (lowerEq mc.name target.name) = true := by
        rw [isCorrectOf, ht, hm] at hcorrect
        simpa using hcorrect
      rw [handleGuess_correct (isTodayGame gameDate todayKey) hgo ht hm hc]
      refine ⟨rfl, rfl, ?_⟩
      show (isTodayGame gameDate todayKey = true) ↔ gameDate = todayKey
      simp [isTodayGame]

/-- Witness for C4: a correct guess on a past date yields found without
won. -/
theorem claim_C4_won_iff_today_witness :
    ((handleGuess freshState
        ⟨[⟨"b1", "B", none, none, [], [], [], [], []⟩],
          some ⟨"b1", "B", none, none, [], [], [], [], []⟩⟩
        (isTodayGame "2024-01-01" "2024-06-15") "b" (.ok (some true))).found = true ∧
      (handleGuess freshState
        ⟨[⟨"b1", "B", none, none, [], [], [], [], []⟩],
          some ⟨"b1", "B", none, none, [], [], [], [], []⟩⟩
        (isTodayGame "2024-01-01" "2024-06-15") "b" (.ok (some true))).gameOver = true ∧
      ((handleGuess freshState
        ⟨[⟨"b1", "B", none, none, [], [], [], [], []⟩],
          some ⟨"b1", "B", none, none, [], [], [], [], []⟩⟩
        (isTodayGame "2024-01-01" "2024-06-15") "b" (.ok (some true))).won = true ↔
        "2024-01-01" = "2024-06-15")) :=
  claim_C4_won_iff_today "2024-01-01" "2024-06-15" (by decide) (by decide)

/-- C6: the transition on a guess is decided by the remote verdict when the
RPC returns a boolean — it is then independent of the locally known target
name; when the RPC throws or returns no boolean, the transition is
identical to the one for a remote boolean equal to the local
case-insensitive name comparison, so the fallback surfaces no error and is
observationally the same as a remotely validated verdict. -/
theorem claim_C6_backend_fallback (s : GameState) (env : GuessEnv)
    (isToday : Bool) (guess : String) :
    (handleGuess s env isToday guess .error =
      handleGuess s env isToday guess (.ok none)) ∧
    (∀ b : Bool, localVerdictOf env guess = some b →
      handleGuess s env isToday guess (.ok none) =
        handleGuess s env isToday guess (.ok (some b))) ∧
    (∀ (b : Bool) (t t' : Character),
      handleGuess s { env with characterOfDay := some t } isToday guess (.ok (some b)) =
        handleGuess s { env with characterOfDay := some t' } isToday guess (.ok (some b))) := by
  refine ⟨rfl, ?_, ?_⟩
  · intro b hb
    cases ht : env.characterOfDay with
    | none => rw [localVerdictOf, ht] at hb; exact absurd hb (by simp)
    | some target =>
      cases hm : matchedCharacter env guess with
      | none => rw [localVerdictOf, ht, hm] at hb; exact absurd hb (by simp)
      | some mc =>
        have hbv : lowerEq mc.name target.name = b := by
          rw [localVerdictOf, ht, hm] at hb
          simpa using hb
        simp [handleGuess, ht, hm, hbv, backendCorrect]
  · intro b t t'
    have hmc : matchedCharacter { env with characterOfDay := some t } guess =
        matchedCharacter { env with characterOfDay := some t' } guess := rfl
    cases hm : matchedCharacter { env with characterOfDay := some t } guess with
    | none => simp [handleGuess, hm, hmc.symm.trans hm]
    | some mc => simp [handleGuess, hm, hmc.symm.trans hm, backendCorrect]

/-- Witness for C6: on a concrete environment where the local comparison is
false, the erroring RPC transition equals the remote-false transition. -/
theorem claim_C6_backend_fallback_witness :
    handleGuess freshState
        ⟨[⟨"a1", "A", none, none, [], [], [], [], []⟩],
          some ⟨"b1", "B", none, none, [], [], [], [], []⟩⟩
        true "a" (.ok none) =
      handleGuess freshState
        ⟨[⟨"a1", "A", none, none, [], [], [], [], []⟩],
          some ⟨"b1", "B", none, none, [], [], [], [], []⟩⟩
        true "a" (.ok (some false)) :=
  (claim_C6_backend_fallback freshState
      ⟨[⟨"a1", "A", none, none, [], [], [], [], []⟩],
        some ⟨"b1", "B", none, none, [], [], [], [], []⟩⟩
      true "a").2.1 false (by decide)

/-- The id set `renderChips` builds from the target items
(`new Set(matchItems.map(item => item.id))`). -/
def chipMatchIds (matchItems : List Entity) : List String :=
  matchItems.map (fun m => m.id)

/-- The per-item feedback of `renderChips` (lines 654-672): each guessed
item paired with `matchIds.has(item.id)`. -/
def chipFlags (items matchItems : List Entity) : List (Entity × Bool) :=
  items.map (fun it => (it, (chipMatchIds matchItems).contains it.id))

/-- C7: for every multi-valued attribute, each item of the guessed
character gets the flag "its id is a member of the target's id set",
computed independently per item; the flags are invariant under reordering
of the target's set, and reordering the guessed items merely permutes the
item/flag pairs.  The computation takes no other input, so it cannot
depend on prior guesses. -/
theorem claim_C7_chip_feedback (items matchItems : List Entity) :
    chipFlags items matchItems =
      items.map (fun it => (it, decide (∃ m ∈ matchItems, m.id = it.id))) ∧
    (∀ matchItems', matchItems.Perm matchItems' →
      chipFlags items matchItems = chipFlags items matchItems') ∧
    (∀ items', items.Perm items' →
      (chipFlags items matchItems).Perm (chipFlags items' matchItems)) := by
  refine ⟨?_, ?_, ?_⟩
  · apply List.map_congr_left
    intro it _
    have : ((chipMatchIds matchItems).contains it.id) =
        decide (∃ m ∈ matchItems, m.id = it.id) := by
      rw [Bool.eq_iff_iff]
      simp [chipMatchIds, List.contains]
    rw [this]
  · intro matchItems' hp
    apply List.map_congr_left
    intro it _
    have : ((chipMatchIds matchItems).contains it.id) =
        ((chipMatchIds matchItems').contains it.id) := by
      rw [Bool.eq_iff_iff]
      simp only [chipMatchIds, List.contains, List.elem_eq_mem, decide_eq_true_eq]
      exact (hp.map (fun m => m.id)).mem_iff
    rw [this]
  · intro items' hp
    exact hp.map _

/-- Witness for C7: a concrete permutation of the target set leaves the
flags unchanged. -/
theorem claim_C7_chip_feedback_witness :
    chipFlags [⟨"x", "X"⟩] [⟨"y", "Y"⟩, ⟨"x", "X"⟩] =
      chipFlags [⟨"x", "X"⟩] [⟨"x", "X"⟩, ⟨"y", "Y"⟩] :=
  (claim_C7_chip_feedback [⟨"x", "X"⟩] [⟨"y", "Y"⟩, ⟨"x", "X"⟩]).2.1
    [⟨"x", "X"⟩, ⟨"y", "Y"⟩] (List.Perm.swap _ _ _)

/-- The inputs one `fetchCharacterOfDay` run reads, as a snapshot: the game
date, the session user (if authenticated), the locally cached catalog (when
present and unexpired), the local game cache entry under the storage key,
the freshly fetched catalog, the `daily_characters.character_id` row for
the date (`maybeSingle`), and the remote attempt row for (user, date). -/
structure FetchInputs where
  gameDate : String
  userId : Option String
  cachedCatalog : Option (List Character)
  localCache : Option StoredGame
  catalog : List Character
  dailyCharacterId : Option String
  remoteAttempt : Option SavedAttempt
deriving DecidableEq, Repr

/-- The optimistic hydration step (lines 247-307): requires both raw caches
present, a valid unexpired characters cache, a game cache entry for the
current date whose character id resolves in the cached catalog; it then
renders the cached character and the cached progress immediately. -/
def optimisticHydration (inp : FetchInputs) : Option (Character × GameState) :=
  match inp.cachedCatalog, inp.localCache with
  | some cc, some g =>
    if g.dateKey == inp.gameDate then
      match cc.find? (fun c => c.id == g.characterId) with
      | some c => some (c, hydrateOptimistic g)
      | none => none
    else none
  | _, _ => none

/-- Resolution of the target against the fresh catalog (lines 367-373):
`allCharactersData.find(c => c.id === dailyCharacter?.character_id)`;
`none` is the thrown `Daily character not found` error. -/
def resolveTargetClient (catalog : List Character) (dailyId : Option String) :
    Option Character :=
  catalog.find? (fun c => some c.id == dailyId)

/-- Result of one `fetchCharacterOfDay` run: the session state left in the
React cells, the character of the day (if any was set), and whether the
load-error screen is shown. -/
structure FetchResult where
  state : GameState
  target : Option Character
  loadError : Bool
deriving DecidableEq, Repr

/-- The `fetchCharacterOfDay` merge (lines 234-478) as a pure function of
its input snapshot.  Optimistic hydration first (else the state is reset to
fresh); then the fresh catalog resolves the daily target (failure shows the
error screen only when no optimistic hydration happened, and keeps the
current state); then, for an authenticated user with a remote attempt row,
the remote record is hydrated and the run returns; otherwise the local
cache entry is hydrated only when its date and character id both match,
and is removed — without resetting the in-memory state — otherwise. -/
def fetchMerge (inp : FetchInputs) : FetchResult :=
  let opt := optimisticHydration inp
  let s0 := (opt.map Prod.snd).getD freshState
  match resolveTargetClient inp.catalog inp.dailyCharacterId with
  | none =>
    { state := s0, target := opt.map Prod.fst, loadError := opt.isNone }
  | some selected =>
    match inp.userId, inp.remoteAttempt with
    | some _, some a =>
      { state := hydrateRemote a, target := some selected, loadError := false }
    | _, _ =>
      match inp.localCache with
      | some g =>
        if g.dateKey == inp.gameDate && g.characterId == selected.id then
          { state := hydrateLocalCache g, target := some selected, loadError := false }
        else
          { state := s0, target := some selected, loadError := false }
      | none => { state := s0, target := some selected, loadError := false }

/-- C5 (amended): precedence of progress sources.  With the daily target
resolving to `sel`: an authenticated user with a remote attempt row gets
exactly the hydrated remote record (authoritative over any local cache),
equal field-by-field to the record when the record is well-formed;
otherwise a matching local cache entry (same date and same target id) is
hydrated; otherwise the session is fresh — unless an optimistic hydration
happened, in which case the optimistic state is retained even though its
cached target id differs from the resolved target. -/
theorem claim_C5_progress_precedence (inp : FetchInputs) (sel : Character)
    (hsel : resolveTargetClient inp.catalog inp.dailyCharacterId = some sel) :
    (∀ u a, inp.userId = some u → inp.remoteAttempt = some a →
      (fetchMerge inp).state = hydrateRemote a ∧ (fetchMerge inp).target = some sel) ∧
    (∀ u a l, inp.userId = some u → inp.remoteAttempt = some a →
      a.lives_remaining = some l → 0 ≤ l → l ≤ MAX_LIVES → (a.won = true → a.found = true) →
      (fetchMerge inp).state.guesses = a.guesses ∧
        (fetchMerge inp).state.lives = l ∧
        (fetchMerge inp).state.found = a.found ∧
        (fetchMerge inp).state.won = a.won) ∧
    ((inp.userId = none ∨ inp.remoteAttempt = none) →
      ∀ g, inp.localCache = some g → g.dateKey = inp.gameDate → g.characterId = sel.id →
      (fetchMerge inp).state = hydrateLocalCache g) ∧
    ((inp.userId = none ∨ inp.remoteAttempt = none) →
      (∀ g, inp.localCache = some g → ¬(g.dateKey = inp.gameDate ∧ g.characterId = sel.id)) →
      optimisticHydration inp = none →
      (fetchMerge inp).state = freshState) ∧
    ((inp.userId = none ∨ inp.remoteAttempt = none) →
      (∀ g, inp.localCache = some g → ¬(g.dateKey = inp.gameDate ∧ g.characterId = sel.id)) →
      ∀ c0 s0, optimisticHydration inp = some (c0, s0) →
      (fetchMerge inp).state = s0) := by
  have hmismatch : ∀ g : StoredGame,
      ¬(g.dateKey = inp.gameDate ∧ g.characterId = sel.id) →
      (g.dateKey == inp.gameDate && g.characterId == sel.id) = false := by
    intro g hne
    rw [Bool.and_eq_false_iff, beq_eq_false_iff_ne, beq_eq_false_iff_ne]
    exact not_and_or.mp hne
  refine ⟨?_, ?_, ?_, ?_, ?_⟩
  · intro u a hu ha
    simp [fetchMerge, hsel, hu, ha]
  · intro u a l hu ha hl hl0 hl10 hwf
    have hstate : (fetchMerge inp).state = hydrateRemote a := by
      simp [fetchMerge, hsel, hu, ha]
    rw [hstate]
    have hlives : clampLives (a.lives_remaining.getD MAX_LIVES) = l := by
      rw [hl]
      show clampLives l = l
      rw [clampLives, min_eq_left hl10, max_eq_right hl0]
    have hfound : (a.found || a.won) = a.found := by
      cases hw : a.won
      · simp
      · simp [hwf hw]
    exact ⟨rfl, hlives, hfound, rfl⟩
  · intro _ g hg hd hc
    rcases Option.eq_none_or_eq_some inp.userId with hu | ⟨u, hu⟩
    · rcases Option.eq_none_or_eq_some inp.remoteAttempt with ha | ⟨a, ha⟩ <;>
        simp [fetchMerge, hsel, hu, ha, hg, hd, hc]
    · rcases Option.eq_none_or_eq_some inp.remoteAttempt with ha | ⟨a, ha⟩
      · simp [fetchMerge, hsel, hu, ha, hg, hd, hc]
      · -- the remote branch would fire, contradicting precedence; but this
        -- sub-branch is only reachable when one of the two is absent
        rcases ‹inp.userId = none ∨ inp.remoteAttempt = none› with h0 | h0 <;>
          simp [h0] at hu ha
  · intro hnone hnot hopt
    have hs0 : ((optimisticHydration inp).map Prod.snd).getD freshState = freshState := by
      rw [hopt]; rfl
    rcases Option.eq_none_or_eq_some inp.userId with hu | ⟨u, hu⟩
    · rcases Option.eq_none_or_eq_some inp.remoteAttempt with ha | ⟨a, ha⟩ <;>
      · cases hg : inp.localCache with
        | none => simp [fetchMerge, hsel, hu, ha, hg, hopt]
        | some g =>
          have hcond := hmismatch g (hnot g hg)
          simp [fetchMerge, hsel, hu, ha, hg, hcond, hopt]
    · rcases Option.eq_none_or_eq_some inp.remoteAttempt with ha | ⟨a, ha⟩
      · cases hg : inp.localCache with
        | none => simp [fetchMerge, hsel, hu, ha, hg, hopt]
        | some g =>
          have hcond := hmismatch g (hnot g hg)
          simp [fetchMerge, hsel, hu, ha, hg, hcond, hopt]
      · rcases hnone with h0 | h0 <;> simp [h0] at hu ha
  · intro hnone hnot c0 s0 hopt
    rcases Option.eq_none_or_eq_some inp.userId with hu | ⟨u, hu⟩
    · rcases Option.eq_none_or_eq_some inp.remoteAttempt with ha | ⟨a, ha⟩ <;>
      · cases hg : inp.localCache with
        | none =>
          exact absurd hopt (by simp [optimisticHydration, hg])
        | some g =>
          have hcond := hmismatch g (hnot g hg)
          simp [fetchMerge, hsel, hu, ha, hg, hcond, hopt]
    · rcases Option.eq_none_or_eq_some inp.remoteAttempt with ha | ⟨a, ha⟩
      · cases hg : inp.localCache with
        | none =>
          exact absurd hopt (by simp [optimisticHydration, hg])
        | some g =>
          have hcond := hmismatch g (hnot g hg)
          simp [fetchMerge, hsel, hu, ha, hg, hcond, hopt]
      · rcases hnone with h0 | h0 <;> simp [h0] at hu ha

/-- Witness for C5: for a concrete authenticated input with a remote
attempt, the merged state is the hydrated remote record. -/
theorem claim_C5_progress_precedence_witness :
    (fetchMerge
        { gameDate := "2024-01-02", userId := some "u1", cachedCatalog := none,
          localCache := some ⟨"2024-01-02", "y1", ["x1", "x1"], 7, false, some false⟩,
          catalog := [⟨"y1", "Y", none, none, [], [], [], [], []⟩],
          dailyCharacterId := some "y1",
          remoteAttempt := some ⟨["x1"], some 8, false, false⟩ }).state =
      hydrateRemote ⟨["x1"], some 8, false, false⟩ :=
  ((claim_C5_progress_precedence
      { gameDate := "2024-01-02", userId := some "u1", cachedCatalog := none,
        localCache := some ⟨"2024-01-02", "y1", ["x1", "x1"], 7, false, some false⟩,
        catalog := [⟨"y1", "Y", none, none, [], [], [], [], []⟩],
        dailyCharacterId := some "y1",
        remoteAttempt := some ⟨["x1"], some 8, false, false⟩ }
      ⟨"y1", "Y", none, none, [], [], [], [], []⟩ (by decide)).1
    "u1" ⟨["x1"], some 8, false, false⟩ rfl rfl).1

/-- Counterexample to C5 as stated: anonymous user, no remote attempt, and
the local cache entry's stored target id ("x1") differs from the freshly
resolved target's id ("y1"), so by the claim the session should start
fresh; but an optimistic hydration occurred from that same stale entry, and
the merged state keeps its guesses and lives instead of resetting. -/
theorem claim_C5_cex :
    (fetchMerge
        { gameDate := "2024-01-02", userId := none,
          cachedCatalog := some [⟨"x1", "X", none, none, [], [], [], [], []⟩],
          localCache := some ⟨"2024-01-02", "x1", ["x1"], 5, false, some false⟩,
          catalog := [⟨"x1", "X", none, none, [], [], [], [], []⟩,
            ⟨"y1", "Y", none, none, [], [], [], [], []⟩],
          dailyCharacterId := some "y1",
          remoteAttempt := none }).state.guesses = ["x1"] ∧
    (fetchMerge
        { gameDate := "2024-01-02", userId := none,
          cachedCatalog := some [⟨"x1", "X", none, none, [], [], [], [], []⟩],
          localCache := some ⟨"2024-01-02", "x1", ["x1"], 5, false, some false⟩,
          catalog := [⟨"x1", "X", none, none, [], [], [], [], []⟩,
            ⟨"y1", "Y", none, none, [], [], [], [], []⟩],
          dailyCharacterId := some "y1",
          remoteAttempt := none }).state ≠ freshState := by
  refine ⟨by decide, by decide⟩

/-- C10 (amended): at each of the three hydration sites the restored lives
are clamped into `[0, MAX_LIVES]` and `gameOver` is set exactly when the
restored `found` is true or the restored lives are 0; the remote site
coerces `found` to `stored found OR stored won`, so `won` implies `found`
there even for malformed records; the two local-cache sites (optimistic and
fallback, which agree) instead restore `stored found` when it is present,
defaulting to `stored won` only when it is absent, so they coerce `found`
from `won` only for records with no stored `found` flag. -/
theorem claim_C10_hydration_invariants (a : SavedAttempt) (g : StoredGame) :
    (0 ≤ (hydrateRemote a).lives ∧ (hydrateRemote a).lives ≤ MAX_LIVES) ∧
    (hydrateRemote a).found = (a.found || a.won) ∧
    ((hydrateRemote a).won = true → (hydrateRemote a).found = true) ∧
    (hydrateRemote a).gameOver =
      ((hydrateRemote a).found || decide ((hydrateRemote a).lives = 0)) ∧
    (0 ≤ (hydrateLocalCache g).lives ∧ (hydrateLocalCache g).lives ≤ MAX_LIVES) ∧
    (hydrateLocalCache g).found = g.found.getD g.won ∧
    (g.found = none → (hydrateLocalCache g).won = true →
      (hydrateLocalCache g).found = true) ∧
    (hydrateLocalCache g).gameOver =
      ((hydrateLocalCache g).found || decide ((hydrateLocalCache g).lives = 0)) ∧
    hydrateOptimistic g = hydrateLocalCache g := by
  refine ⟨⟨clampLives_nonneg _, clampLives_le _⟩, rfl, ?_, rfl,
    ⟨clampLives_nonneg _, clampLives_le _⟩, rfl, ?_, rfl, rfl⟩
  · intro hw
    have hw' : a.won = true := hw
    simp [hydrateRemote, hw']
  · intro hnone hw
    have hw' : g.won = true := hw
    simp [hydrateLocalCache, hnone, hw']

/-- Witness for C10: the conditional clauses at a concrete well-formed
record and a concrete cache entry without a stored found flag. -/
theorem claim_C10_hydration_invariants_witness :
    (hydrateRemote ⟨[], some 3, true, false⟩).found = true ∧
    (hydrateLocalCache ⟨"d", "c", [], 3, true, none⟩).found = true :=
  ⟨(claim_C10_hydration_invariants ⟨[], some 3, true, false⟩
      ⟨"d", "c", [], 3, true, none⟩).2.2.1 (by decide),
    (claim_C10_hydration_invariants ⟨[], some 3, true, false⟩
      ⟨"d", "c", [], 3, true, none⟩).2.2.2.2.2.2.1 rfl (by decide)⟩

/-- Counterexample to C10 as stated: a local cache record storing
`found = false` together with `won = true` hydrates (at both local sites)
to a state with `won = true` but `found = false` — the stored `won` flag is
not coerced into `found`, and the claimed invariant "won implies found"
fails after hydration. -/
theorem claim_C10_cex :
    (hydrateLocalCache ⟨"2024-01-02", "x1", [], 5, true, some false⟩).won = true ∧
    (hydrateLocalCache ⟨"2024-01-02", "x1", [], 5, true, some false⟩).found = false := by
  refine ⟨by decide, by decide⟩

/-- Milliseconds per day, the `86400000` of the daily-character route. -/
def msPerDay : Nat := 86400000

/-- Gregorian leap-year rule, as `Date` implements it. -/
def isLeapYear (y : Nat) : Bool := (y % 4 == 0 && y % 100 != 0) || y % 400 == 0

def yearLength (y : Nat) : Nat := if isLeapYear y then 366 else 365

/-- Days elapsed before Jan 1 of year `y`, counting from year 0. -/
def daysBeforeYear : Nat → Nat
  | 0 => 0
  | y + 1 => daysBeforeYear y + yearLength y

/-- An instant on a single civil timeline: the calendar year, the 1-based
ordinal day within that year, and the milliseconds elapsed in the day. -/
structure Instant where
  year : Nat
  doy : Nat
  msOfDay : Nat
deriving DecidableEq, Repr

/-- `getTime()` of the instant: milliseconds since Jan 1 of year 0. -/
def Instant.toMs (i : Instant) : Nat :=
  (daysBeforeYear i.year + (i.doy - 1)) * msPerDay + i.msOfDay

/-- `new Date(year, 0, 0).getTime()`: day 0 of January is Dec 31 of the
previous year, one day before Jan 1 of `year`. -/
def jsNewYearBaseMs (y : Nat) : Nat := (daysBeforeYear y - 1) * msPerDay

/-- The route's day-of-year computation (lines 208-212):
`Math.floor((now.getTime() - new Date(now.getFullYear(), 0, 0).getTime())
/ 86400000)`. -/
def jsDayOfYear (nowMs y : Nat) : Nat := (nowMs - jsNewYearBaseMs y) / msPerDay

/-- The `YYYY-MM-DD` date key of an instant, modelled by the equivalent
(year, ordinal-day) pair. -/
def Instant.dateKey (i : Instant) : Nat × Nat := (i.year, i.doy)

inductive ApiError where
  | noCharacters
  | fetchFailed
deriving DecidableEq, Repr

/-- `daily_characters` lookup for a date. -/
def lookupDaily (store : List ((Nat × Nat) × String)) (d : Nat × Nat) : Option String :=
  (store.find? (fun r => r.1 == d)).map Prod.snd

/-- Out-of-bounds placeholder for JavaScript array indexing; never hit by
the route, whose index is always `_ % length` with a non-empty array. -/
def defaultCharacter : Character := ⟨"", "", none, none, [], [], [], [], []⟩

/-- `GET /api/daily-character` (route lines 171-271) as a function of the
`daily_characters` store, the catalog (the `characters` table with lookups
inlined, in ascending order as `fetchCharacters({ ascending: true })`
returns it) and the current instant.  An existing row for today is reused —
its id must still resolve in the characters table, else the `.single()`
fetch errors; otherwise an empty catalog is the 404 `No characters
available`, and else `allCharacters[dayOfYear % allCharacters.length]` is
selected and the assignment inserted.  The returned id's full-character
fetch succeeds in the insert branch since the id was just taken from the
catalog. -/
def apiDailyCharacter (store : List ((Nat × Nat) × String))
    (catalog : List Character) (now : Instant) :
    Except ApiError (String × List ((Nat × Nat) × String)) :=
  match lookupDaily store now.dateKey with
  | some cid =>
    match catalog.find? (fun c => c.id == cid) with
    | some _ => .ok (cid, store)
    | none => .error .fetchFailed
  | none =>
    if catalog.length = 0 then .error .noCharacters
    else
      let characterIndex := jsDayOfYear now.toMs now.year % catalog.length
      let cid := (catalog.getD characterIndex defaultCharacter).id
      .ok (cid, (now.dateKey, cid) :: store)

theorem daysBeforeYear_pos {y : Nat} (hy : 1 ≤ y) : 1 ≤ daysBeforeYear y := by
  cases y with
  | zero => omega
  | succ y =>
    show 1 ≤ daysBeforeYear y + yearLength y
    have : 365 ≤ yearLength y := by
      rw [yearLength]
      split <;> omega
    omega

/-- The route's millisecond arithmetic computes exactly the 1-based ordinal
day of the instant within the instant's own year. -/
theorem jsDayOfYear_toMs (i : Instant) (hy : 1 ≤ i.year) (hdoy : 1 ≤ i.doy)
    (hms : i.msOfDay < msPerDay) : jsDayOfYear i.toMs i.year = i.doy := by
  have hA : 1 ≤ daysBeforeYear i.year := daysBeforeYear_pos hy
  have hD : 0 < msPerDay := by norm_num [msPerDay]
  rw [jsDayOfYear, jsNewYearBaseMs, Instant.toMs]
  have h1 : (daysBeforeYear i.year + (i.doy - 1)) * msPerDay + i.msOfDay -
      (daysBeforeYear i.year - 1) * msPerDay = msPerDay * i.doy + i.msOfDay := by
    have h2 : daysBeforeYear i.year + (i.doy - 1) =
        (daysBeforeYear i.year - 1) + i.doy := by omega
    rw [h2, Nat.add_mul]
    rw [Nat.mul_comm i.doy msPerDay]
    omega
  rw [h1, Nat.mul_add_div hD, Nat.div_eq_of_lt hms, Nat.add_zero]

/-- C1: resolving the daily target for a date with a non-empty catalog and
no existing DailyPuzzle row selects `catalog[dayOfYear % catalog.length]`
where `dayOfYear` is the ordinal day of the date within the date's own
year, persists the assignment into `daily_characters`, and a second
resolution for the same date (same catalog) returns the same character
id without modifying the store further. -/
theorem claim_C1_daily_selection (store : List ((Nat × Nat) × String))
    (catalog : List Character) (now : Instant)
    (hy : 1 ≤ now.year) (hdoy : 1 ≤ now.doy) (hms : now.msOfDay < msPerDay)
    (hnone : lookupDaily store now.dateKey = none)
    (hne : catalog.length ≠ 0) :
    apiDailyCharacter store catalog now =
      .ok ((catalog.getD (now.doy % catalog.length) defaultCharacter).id,
        (now.dateKey,
          (catalog.getD (now.doy % catalog.length) defaultCharacter).id) :: store) ∧
    apiDailyCharacter
        ((now.dateKey,
          (catalog.getD (now.doy % catalog.length) defaultCharacter).id) :: store)
        catalog now =
      .ok ((catalog.getD (now.doy % catalog.length) defaultCharacter).id,
        (now.dateKey,
          (catalog.getD (now.doy % catalog.length) defaultCharacter).id) :: store) := by
  have hpos : 0 < catalog.length := Nat.pos_of_ne_zero hne
  have hdy : jsDayOfYear now.toMs now.year = now.doy := jsDayOfYear_toMs now hy hdoy hms
  have hlt : now.doy % catalog.length < catalog.length := Nat.mod_lt _ hpos
  constructor
  · simp only [apiDailyCharacter, hnone, hdy]
    rw [if_neg hne]
  · set cid := (catalog.getD (now.doy % catalog.length) defaultCharacter).id with hcid
    have hlook : lookupDaily ((now.dateKey, cid) :: store) now.dateKey = some cid := by
      simp [lookupDaily, List.find?]
    have hget : catalog.getD (now.doy % catalog.length) defaultCharacter =
        catalog.get ⟨now.doy % catalog.length, hlt⟩ := by
      rw [List.getD_eq_getElem?_getD, List.getElem?_eq_getElem hlt]
      rfl
    have hfind : ∃ c, catalog.find? (fun c => c.id == cid) = some c := by
      rw [← Option.isSome_iff_exists, List.find?_isSome]
      refine ⟨catalog.get ⟨now.doy % catalog.length, hlt⟩,
        List.get_mem catalog _ _, ?_⟩
      rw [hcid, hget]
      simp
    obtain ⟨c, hc⟩ := hfind
    simp only [apiDailyCharacter, hlook, hc]

/-- Witness for C1: a concrete two-character catalog on day 5 of year 1
selects index `5 % 2 = 1` and returns the same id again on the second
resolution. -/
theorem claim_C1_daily_selection_witness :
    apiDailyCharacter [] [⟨"x1", "X", none, none, [], [], [], [], []⟩,
        ⟨"y1", "Y", none, none, [], [], [], [], []⟩] ⟨1, 5, 0⟩ =
      .ok (([⟨"x1", "X", none, none, [], [], [], [], []⟩,
          (⟨"y1", "Y", none, none, [], [], [], [], []⟩ : Character)].getD (5 % 2)
            defaultCharacter).id,
        ((⟨1, 5, 0⟩ : Instant).dateKey,
          ([⟨"x1", "X", none, none, [], [], [], [], []⟩,
            (⟨"y1", "Y", none, none, [], [], [], [], []⟩ : Character)].getD (5 % 2)
              defaultCharacter).id) :: []) ∧
    apiDailyCharacter
        (((⟨1, 5, 0⟩ : Instant).dateKey,
          ([⟨"x1", "X", none, none, [], [], [], [], []⟩,
            (⟨"y1", "Y", none, none, [], [], [], [], []⟩ : Character)].getD (5 % 2)
              defaultCharacter).id) :: [])
        [⟨"x1", "X", none, none, [], [], [], [], []⟩,
          ⟨"y1", "Y", none, none, [], [], [], [], []⟩] ⟨1, 5, 0⟩ =
      .ok (([⟨"x1", "X", none, none, [], [], [], [], []⟩,
          (⟨"y1", "Y", none, none, [], [], [], [], []⟩ : Character)].getD (5 % 2)
            defaultCharacter).id,
        ((⟨1, 5, 0⟩ : Instant).dateKey,
          ([⟨"x1", "X", none, none, [], [], [], [], []⟩,
            (⟨"y1", "Y", none, none, [], [], [], [], []⟩ : Character)].getD (5 % 2)
              defaultCharacter).id) :: []) :=
  claim_C1_daily_selection [] [⟨"x1", "X", none, none, [], [], [], [], []⟩,
      ⟨"y1", "Y", none, none, [], [], [], [], []⟩] ⟨1, 5, 0⟩
    (by decide) (by decide) (by norm_num [msPerDay]) rfl (by decide)

/-- The `withRetry` combinator (lines 50-73) on a run whose outcome per
attempt index is given by `run`: it calls `run` until a success, at most
`attempts` times, and reports the final result together with the number of
calls performed (the sleeps between attempts carry no state). -/
def withRetryModel {α : Type} (run : Nat → Except Unit α) :
    Nat → Nat → Except Unit α × Nat
  | _, 0 => (.error (), 0)
  | index, n + 1 =>
    match run index with
    | .ok a => (.ok a, 1)
    | .error _ =>
      let rest := withRetryModel run (index + 1) n
      (rest.1, rest.2 + 1)

theorem withRetryModel_calls_le {α : Type} (run : Nat → Except Unit α)
    (index attempts : Nat) :
    (withRetryModel run index attempts).2 ≤ attempts := by
  induction attempts generalizing index with
  | zero => exact Nat.le_refl 0
  | succ n ih =>
    rw [withRetryModel]
    cases run index with
    | ok a => exact Nat.succ_le_succ (Nat.zero_le n)
    | error e => exact Nat.succ_le_succ (ih (index + 1))

/-- C8 (amended): resolving the target fails as not-found when the catalog
is empty or the assigned id no longer resolves to a catalog entry — on the
client the `find` comes back empty (the thrown `Daily character not
found`), on the route the empty catalog is the 404 — and nothing retries
it unboundedly: every retried operation performs at most its fixed number
of attempts.  The failure is surfaced as the load-error screen only when
no optimistic hydration happened; when an optimistic local-cache hydration
already rendered state, the catch block swallows the failure (`loadError`
stays unset) and the stale cached character and progress keep playing. -/
theorem claim_C8_not_found :
    (∀ dailyId : Option String, resolveTargetClient [] dailyId = none) ∧
    (∀ (catalog : List Character) (cid : String),
      (∀ c ∈ catalog, c.id ≠ cid) →
      resolveTargetClient catalog (some cid) = none) ∧
    (∀ (store : List ((Nat × Nat) × String)) (now : Instant),
      lookupDaily store now.dateKey = none →
      apiDailyCharacter store [] now = .error .noCharacters) ∧
    (∀ inp : FetchInputs,
      resolveTargetClient inp.catalog inp.dailyCharacterId = none →
      optimisticHydration inp = none →
      (fetchMerge inp).loadError = true ∧ (fetchMerge inp).target = none) ∧
    (∀ (inp : FetchInputs) (c0 : Character) (s0 : GameState),
      resolveTargetClient inp.catalog inp.dailyCharacterId = none →
      optimisticHydration inp = some (c0, s0) →
      (fetchMerge inp).loadError = false ∧ (fetchMerge inp).state = s0 ∧
        (fetchMerge inp).target = some c0) ∧
    (∀ (α : Type) (run : Nat → Except Unit α) (index attempts : Nat),
      (withRetryModel run index attempts).2 ≤ attempts) := by
  refine ⟨fun _ => rfl, ?_, ?_, ?_, ?_, fun α run index attempts =>
    withRetryModel_calls_le run index attempts⟩
  · intro catalog cid hnot
    rw [resolveTargetClient, List.find?_eq_none]
    intro c hmem
    simp [hnot c hmem]
  · intro store now hnone
    simp [apiDailyCharacter, hnone]
  · intro inp hsel hopt
    refine ⟨?_, ?_⟩ <;> simp [fetchMerge, hsel, hopt]
  · intro inp c0 s0 hsel hopt
    refine ⟨?_, ?_, ?_⟩ <;> simp [fetchMerge, hsel, hopt]

/-- Witness for C8: a concrete deleted target id on a non-empty catalog
fails to resolve, and a two-attempt retried run makes at most two calls. -/
theorem claim_C8_not_found_witness :
    resolveTargetClient [⟨"x1", "X", none, none, [], [], [], [], []⟩]
        (some "gone") = none ∧
    (withRetryModel (fun _ => (.error () : Except Unit GameState)) 0 2).2 ≤ 2 :=
  ⟨claim_C8_not_found.2.1 [⟨"x1", "X", none, none, [], [], [], [], []⟩] "gone"
      (by decide),
    claim_C8_not_found.2.2.2.2.2 GameState
      (fun _ => (.error () : Except Unit GameState)) 0 2⟩

/-- Counterexample to C8 as stated: the assigned target id ("gone") no
longer resolves in the fresh catalog, so the resolution attempt fails —
but an optimistic hydration already rendered the cached character and
progress, the catch block runs with `optimisticHydrated` true, and the
failure is not surfaced: `loadError` stays false and the session keeps
playing the stale cached state instead of showing "puzzle unavailable". -/
theorem claim_C8_cex :
    resolveTargetClient
        [⟨"x1", "X", none, none, [], [], [], [], []⟩] (some "gone") = none ∧
    (fetchMerge
        { gameDate := "2024-01-02", userId := none,
          cachedCatalog := some [⟨"x1", "X", none, none, [], [], [], [], []⟩],
          localCache := some ⟨"2024-01-02", "x1", ["x1"], 6, false, some false⟩,
          catalog := [⟨"x1", "X", none, none, [], [], [], [], []⟩],
          dailyCharacterId := some "gone",
          remoteAttempt := none }).loadError = false ∧
    (fetchMerge
        { gameDate := "2024-01-02", userId := none,
          cachedCatalog := some [⟨"x1", "X", none, none, [], [], [], [], []⟩],
          localCache := some ⟨"2024-01-02", "x1", ["x1"], 6, false, some false⟩,
          catalog := [⟨"x1", "X", none, none, [], [], [], [], []⟩],
          dailyCharacterId := some "gone",
          remoteAttempt := none }).state.guesses = ["x1"] := by
  refine ⟨by decide, by decide, by decide⟩

/-- A `profiles` row as read by the increment helpers of `lib/profile.ts`:
the two counters, both nullable. -/
structure Profile where
  games_played : Option Int
  wins : Option Int
deriving DecidableEq, Repr

/-- JavaScript `(x || 0)` on a nullable counter: `null` is falsy and gives
0, and so is a stored 0 — which `||` also sends to 0. -/
def jsOrZero : Option Int → Int
  | none => 0
  | some n => if n = 0 then 0 else n

/-- `incrementGamesPlayedDirect` (profile.ts lines 28-48) against the
`profiles` table modelled as a map from user id to row: read the row (a
missing row returns the table unchanged), then write
`games_played := (games_played || 0) + 1` for the rows matching the id. -/
def incrementGamesPlayedDirect (db : String → Option Profile) (userId : String) :
    String → Option Profile :=
  match db userId with
  | none => db
  | some profile =>
    fun uid =>
      if uid == userId then
        some { profile with games_played := some (jsOrZero profile.games_played + 1) }
      else db uid

/-- `incrementWinsDirect` (profile.ts lines 50-70), same shape on `wins`. -/
def incrementWinsDirect (db : String → Option Profile) (userId : String) :
    String → Option Profile :=
  match db userId with
  | none => db
  | some profile =>
    fun uid =>
      if uid == userId then
        some { profile with wins := some (jsOrZero profile.wins + 1) }
      else db uid

theorem jsOrZero_getD (o : Option Int) : jsOrZero o = o.getD 0 := by
  cases o with
  | none => rfl
  | some n =>
    show (if n = 0 then 0 else n) = n
    split <;> omega

/-- C9: with no concurrent writer, one completed call of each stat
increment on a user whose profile row exists leaves that user's stored
counter at its previous value plus exactly 1 — a null previous value
counting as 0 — and leaves every other row unchanged, so no increment is
lost in the expected one-user one-session usage. -/
theorem claim_C9_stat_increment (db : String → Option Profile)
    (userId : String) (p : Profile) (h : db userId = some p) :
    incrementGamesPlayedDirect db userId userId =
      some { p with games_played := some (p.games_played.getD 0 + 1) } ∧
    (∀ v, v ≠ userId → incrementGamesPlayedDirect db userId v = db v) ∧
    incrementWinsDirect db userId userId =
      some { p with wins := some (p.wins.getD 0 + 1) } ∧
    (∀ v, v ≠ userId → incrementWinsDirect db userId v = db v) := by
  refine ⟨?_, ?_, ?_, ?_⟩
  · simp [incrementGamesPlayedDirect, h, jsOrZero_getD]
  · intro v hv
    simp [incrementGamesPlayedDirect, h, hv]
  · simp [incrementWinsDirect, h, jsOrZero_getD]
  · intro v hv
    simp [incrementWinsDirect, h, hv]

/-- Witness for C9: a concrete table with a null games counter goes to 1,
and the wins counter 2 goes to 3. -/
theorem claim_C9_stat_increment_witness :
    incrementGamesPlayedDirect
        (fun uid => if uid == "u1" then some ⟨none, some 2⟩ else none) "u1" "u1" =
      some ⟨some 1, some 2⟩ ∧
    incrementWinsDirect
        (fun uid => if uid == "u1" then some ⟨none, some 2⟩ else none) "u1" "u1" =
      some ⟨none, some 3⟩ :=
  ⟨((claim_C9_stat_increment
        (fun uid => if uid == "u1" then some ⟨none, some 2⟩ else none)
        "u1" ⟨none, some 2⟩ (by decide)).1).trans (by decide),
    ((claim_C9_stat_increment
        (fun uid => if uid == "u1" then some ⟨none, some 2⟩ else none)
        "u1" ⟨none, some 2⟩ (by decide)).2.2.1).trans (by decide)⟩
